import Mathlib

/-!
# SmartClass — Content Delivery Cache, Fallback Orchestrator and Lesson State Machine

A shallow embedding of the SmartClass repository's core logic, translated from
the TypeScript source:

* `lib/content-cache.ts` — the `ContentCache` class (TTL cache with LRU
  eviction, localStorage mirroring and hit/miss statistics);
* `data/ai-content.ts` — the content orchestrator (`getAIContentForSubtopic`,
  `getFallbackContent`, `generateRAGEnhancedContentCards`, `formatTitle`,
  `shouldHaveImage`);
* `lib/chromadb-client.ts` — the ChromaDB retrieval client
  (`retrieveContext`, `validateContent`, `generateRAGEnhancedContent`);
* `lib/api-client.ts` — `checkAiServiceStatus`;
* `app/content/.../page.tsx` — the lesson progression state machine
  (`handleNextCard`, `evaluateQuiz`, `handleAnswerSelect` and the
  `main-quiz-review` scoring effect).

JavaScript `Map` objects are modelled as association lists in insertion
order (`Map.set` replaces in place, otherwise appends; iteration order is
insertion order).  `Date.now()` is an explicit `now : ℤ` parameter.
JavaScript numbers appearing in arithmetic that the claims touch are
modelled as `ℚ` (with `Math.round x = ⌊x + 1/2⌋`); timestamps as `ℤ`.
`async` calls to external services are modelled by an environment record
supplying each call's outcome, `Except Unit α` where the call can throw.
-/

set_option autoImplicit false

namespace SmartClass

/-! ## JavaScript helpers -/

/-- JavaScript `Math.round`: round half towards `+∞`, i.e. `⌊x + 1/2⌋`. -/
def jsRound (x : ℚ) : ℤ := ⌊x + 1/2⌋

/-- JavaScript `String.prototype.includes`: substring containment. -/
def jsIncludes (hay needle : String) : Bool := decide (needle.toList <:+: hay.toList)

/-! ## JavaScript `Map` as an association list in insertion order -/

/-- Model of `Map.get`: first entry with the given key. -/
def mapGet {β : Type} (m : List (String × β)) (k : String) : Option β :=
  (m.find? (fun p => p.1 = k)).map Prod.snd

/-- Model of `Map.set`: replace in place when the key is present, otherwise append. -/
def mapSet {β : Type} (m : List (String × β)) (k : String) (v : β) : List (String × β) :=
  if m.any (fun p => p.1 = k) then m.map (fun p => if p.1 = k then (k, v) else p)
  else m ++ [(k, v)]

/-- Model of `Map.delete`: remove the entry with the given key. -/
def mapDelete {β : Type} (m : List (String × β)) (k : String) : List (String × β) :=
  m.filter (fun p => ¬ p.1 = k)

/-! ## Cache Store (`lib/content-cache.ts`) -/

/-- Model of `CacheEntry<T>` from `content-cache.ts`. -/
structure CacheEntry (α : Type) where
  data : α
  timestamp : ℤ
  expiresAt : ℤ
  accessCount : ℕ
  lastAccessed : ℤ
deriving DecidableEq, Repr

/-- Model of `'content' | 'quiz'` request kinds. -/
inductive CacheKind | content | quiz
deriving DecidableEq, Repr

def CacheKind.toStr : CacheKind → String
  | .content => "content"
  | .quiz => "quiz"

/-- Model of `'mid' | 'final'` quiz variants. -/
inductive QuizType | mid | final
deriving DecidableEq, Repr

def QuizType.toStr : QuizType → String
  | .mid => "mid"
  | .final => "final"

/-- Model of `CacheKey` from `content-cache.ts`. -/
structure CacheKey where
  type : CacheKind
  topicId : String
  subtopicId : String
  subjectId : String
  gradeId : String
  quizType : Option QuizType := none
  numCards : Option ℕ := none
deriving DecidableEq, Repr

/-- JavaScript `Array.prototype.join(':')`. -/
def joinColon : List String → String
  | [] => ""
  | [s] => s
  | s :: rest => s ++ ":" ++ joinColon rest

/-- Model of `generateKey` from `content-cache.ts`: `[type, subjectId, gradeId, topicId,
subtopicId]`, plus `quizType` when present and `numCards` when truthy
(JavaScript `if (numCards)` drops `0`), joined with `':'`. -/
def generateKey (p : CacheKey) : String :=
  joinColon ([p.type.toStr, p.subjectId, p.gradeId, p.topicId, p.subtopicId]
    ++ (match p.quizType with | some q => [q.toStr] | none => [])
    ++ (match p.numCards with
        | some n => if n = 0 then [] else [Nat.repr n]
        | none => []))

/-- The mutable state of a `ContentCache` instance: the in-memory `Map`, the
localStorage mirror (durable records keyed by `"smartclass_cache_" ++ key`),
and the hit/miss counters. -/
structure CacheState (α : Type) where
  cache : List (String × CacheEntry α)
  storage : List (String × CacheEntry α)
  hits : ℕ
  misses : ℕ
deriving Repr

/-- Model of `DEFAULT_TTL = 30 * 60 * 1000`. -/
def DEFAULT_TTL : ℤ := 30 * 60 * 1000

/-- Model of `MAX_ENTRIES = 100`. -/
def MAX_ENTRIES : ℕ := 100

/-- The fixed localStorage namespace prefix `smartclass_cache_`. -/
def storagePrefix : String := "smartclass_cache_"

/-- Model of `persistToStorage` (modelled as succeeding; failures are swallowed in the
source and never affect the in-memory result). -/
def persistToStorage {α : Type} (storage : List (String × CacheEntry α))
    (key : String) (e : CacheEntry α) : List (String × CacheEntry α) :=
  mapSet storage (storagePrefix ++ key) e

/-- Model of `removeFromStorage`. -/
def removeFromStorage {α : Type} (storage : List (String × CacheEntry α))
    (key : String) : List (String × CacheEntry α) :=
  mapDelete storage (storagePrefix ++ key)

/-- Model of `loadFromStorage`: look the key up in the durable mirror; an expired
record is removed and treated as absent.  Returns the loaded entry (if any)
together with the updated mirror. -/
def loadFromStorage {α : Type} (storage : List (String × CacheEntry α))
    (key : String) (now : ℤ) : Option (CacheEntry α) × List (String × CacheEntry α) :=
  match mapGet storage (storagePrefix ++ key) with
  | none => (none, storage)
  | some e => if now > e.expiresAt then (none, removeFromStorage storage key) else (some e, storage)

/-- Loop body of `evictLeastRecentlyUsed`'s scan: starting from
`oldestTime = Infinity` (`acc = none`), keep the entry whose `lastAccessed`
is strictly below the running minimum (so the first entry attaining the
minimum wins). -/
def lruStep {α : Type} (acc : Option (String × ℤ)) (p : String × CacheEntry α) :
    Option (String × ℤ) :=
  match acc with
  | none => some (p.1, p.2.lastAccessed)
  | some (k, t) =>
    if p.2.lastAccessed < t then some (p.1, p.2.lastAccessed) else some (k, t)

/-- Scan of `evictLeastRecentlyUsed`: the key holding the oldest
`lastAccessed` (`none` on an empty map). -/
def findOldest {α : Type} (cache : List (String × CacheEntry α)) : Option String :=
  (cache.foldl lruStep none).map Prod.fst

/-- Model of `evictLeastRecentlyUsed`. -/
def evictLeastRecentlyUsed {α : Type} (st : CacheState α) : CacheState α :=
  match findOldest st.cache with
  | some k => { st with cache := mapDelete st.cache k, storage := removeFromStorage st.storage k }
  | none => st

/-- Model of `set(params, data, ttl)`: evict the LRU entry when the store already
holds `MAX_ENTRIES` entries, then insert/overwrite and mirror durably. -/
def cacheSet {α : Type} (p : CacheKey) (data : α) (ttl : ℤ) (now : ℤ)
    (st : CacheState α) : CacheState α :=
  let key := generateKey p
  let st1 := if st.cache.length ≥ MAX_ENTRIES then evictLeastRecentlyUsed st else st
  let entry : CacheEntry α :=
    { data := data, timestamp := now, expiresAt := now + ttl, accessCount := 0, lastAccessed := now }
  { st1 with cache := mapSet st1.cache key entry,
             storage := persistToStorage st1.storage key entry }

/-- Model of `processHit`: bump the entry's `accessCount`, stamp `lastAccessed`,
re-`set` it and count a hit; return `entry.data`. -/
def processHit {α : Type} (key : String) (e : CacheEntry α) (now : ℤ)
    (st : CacheState α) : Option α × CacheState α :=
  let e' := { e with accessCount := e.accessCount + 1, lastAccessed := now }
  (some e.data, { st with cache := mapSet st.cache key e', hits := st.hits + 1 })

/-- Model of `get(params)`: in-memory lookup; on an in-memory miss consult the durable
mirror, reinserting a live record; a found-but-expired entry is deleted
everywhere and counted as a miss. -/
def cacheGet {α : Type} (p : CacheKey) (now : ℤ) (st : CacheState α) :
    Option α × CacheState α :=
  let key := generateKey p
  match mapGet st.cache key with
  | none =>
    match loadFromStorage st.storage key now with
    | (some e, storage') =>
      processHit key e now { st with cache := mapSet st.cache key e, storage := storage' }
    | (none, storage') =>
      (none, { st with storage := storage', misses := st.misses + 1 })
  | some e =>
    if now > e.expiresAt then
      (none, { st with cache := mapDelete st.cache key,
                       storage := removeFromStorage st.storage key,
                       misses := st.misses + 1 })
    else processHit key e now st

/-- Model of `invalidateTopic(topicId, subtopicId?)`: delete every entry whose key
*string* contains `topicId` (and, when given, `subtopicId`) as a substring —
`key.includes(topicId)` in the source. -/
def invalidateTopic {α : Type} (topicId : String) (subtopicId : Option String)
    (st : CacheState α) : CacheState α :=
  let hit : String → Bool := fun key =>
    jsIncludes key topicId &&
      (match subtopicId with | none => true | some s => jsIncludes key s)
  { st with
    cache := st.cache.filter (fun p => ! hit p.1),
    storage := (st.cache.filter (fun p => hit p.1)).foldl
      (fun acc p => mapDelete acc (storagePrefix ++ p.1)) st.storage }

/-- Model of `CacheStats` as returned by `getStats` (the `memoryUsage` estimate is a
`JSON.stringify` byte count, outside this embedding). -/
structure CacheStats where
  totalEntries : ℕ
  hitRate : ℚ
  hits : ℕ
  misses : ℕ
deriving DecidableEq, Repr

/-- Model of `getStats`: `hitRate = hits/(hits+misses)*100` (0 when no requests),
reported as `Math.round(hitRate * 100) / 100`, i.e. rounded to two decimals. -/
def getStats {α : Type} (st : CacheState α) : CacheStats :=
  let totalRequests := st.hits + st.misses
  let hitRate : ℚ := if totalRequests > 0 then ((st.hits : ℚ) / totalRequests) * 100 else 0
  { totalEntries := st.cache.length,
    hitRate := (jsRound (hitRate * 100) : ℚ) / 100,
    hits := st.hits,
    misses := st.misses }

/-- Model of `getCachedContent`: `get` at the `content`-typed key. -/
def getCachedContent {α : Type} (topicId subtopicId subjectId gradeId : String)
    (numCards : ℕ) (now : ℤ) (st : CacheState α) : Option α × CacheState α :=
  cacheGet { type := .content, topicId := topicId, subtopicId := subtopicId,
             subjectId := subjectId, gradeId := gradeId, numCards := some numCards } now st

/-- Model of `cacheContent`: `set` at the `content`-typed key with the default TTL. -/
def cacheContent {α : Type} (topicId subtopicId subjectId gradeId : String)
    (content : α) (numCards : ℕ) (now : ℤ) (st : CacheState α) : CacheState α :=
  cacheSet { type := .content, topicId := topicId, subtopicId := subtopicId,
             subjectId := subjectId, gradeId := gradeId, numCards := some numCards }
    content DEFAULT_TTL now st

/-! ## Gateways (`lib/api-client.ts`, `lib/chromadb-client.ts`) -/

/-- Model of `Array.prototype.join(sep)` for an arbitrary separator. -/
def joinSep (sep : String) : List String → String
  | [] => ""
  | [s] => s
  | s :: rest => s ++ sep ++ joinSep sep rest

/-- Model of `ServiceStatus` as returned by `checkAiServiceStatus`. -/
structure ServiceStatus where
  available : Bool
  modelLoaded : Bool
  message : String
deriving DecidableEq, Repr

/-- Model of `checkAiServiceStatus`: probes `/health`; a thrown fetch is caught and
reported as unavailable, so the probe itself never throws.  The argument is
the outcome of the underlying `checkHealth` call (`Except.error` = the fetch
threw, `Except.ok b` = a response with `model_loaded = b`). -/
def checkAiServiceStatus (health : Except Unit Bool) : ServiceStatus :=
  match health with
  | .error _ => { available := false, modelLoaded := false,
                  message := "AI service is not available. Using fallback content." }
  | .ok false => { available := true, modelLoaded := false,
                   message := "AI service is starting up. Model is loading..." }
  | .ok true => { available := true, modelLoaded := true, message := "AI service is ready!" }

/-- A document returned by the ChromaDB search endpoint (`ChromaDocument`):
its text, `metadata.topic`, `metadata.document_type` and optional distance. -/
structure ChromaDoc where
  text : String
  topic : Option String := none
  docType : Option String := none
  distance : Option ℚ := none
deriving DecidableEq, Repr

/-- JavaScript `doc.distance || 1.0`: `undefined` *and* `0` (falsy) become 1. -/
def distOr1 (d : ChromaDoc) : ℚ :=
  match d.distance with
  | none => 1
  | some x => if x = 0 then 1 else x

/-- Model of `RetrievalContext` from `chromadb-client.ts`. -/
structure RetrievalContext where
  documents : List ChromaDoc
  relevantContent : String
  sources : List String
deriving DecidableEq, Repr

/-- Model of `getEmptyContext`. -/
def getEmptyContext : RetrievalContext :=
  { documents := [], relevantContent := "", sources := [] }

/-- JavaScript `.filter((s, i, arr) => arr.indexOf(s) === i)`: keep the first
occurrence of each element, in order. -/
def firstDedup (l : List String) : List String :=
  l.foldl (fun acc x => if acc.contains x then acc else acc ++ [x]) []

/-- JavaScript `meta.document_type || 'syllabus_document'` (empty string is
falsy). -/
def docTypeOrDefault (d : ChromaDoc) : String :=
  match d.docType with
  | some s => if s = "" then "syllabus_document" else s
  | none => "syllabus_document"

/-- Model of `retrieveContext`: every failure path (not connected, fetch threw,
non-ok response, `!data.success`, missing documents) yields the empty
context; on success the documents are filtered by the relevance threshold
`(doc.distance || 1.0) < 0.8`, their texts joined and clipped to 2000
characters, and their source types deduplicated.  `searchResult = none`
stands for any of the failure paths. -/
def retrieveContext (searchResult : Option (List ChromaDoc)) : RetrievalContext :=
  match searchResult with
  | none => getEmptyContext
  | some docs =>
    let relevantDocs := docs.filter (fun d => distOr1 d < 4/5)
    { documents := relevantDocs,
      relevantContent := (joinSep "\n\n" (relevantDocs.map (fun d => d.text))).take 2000,
      sources := firstDedup (relevantDocs.map docTypeOrDefault) }

/-- The validation record produced by `validateContent`. -/
structure Validation where
  isValid : Bool
  confidence : ℚ
  suggestions : List String
  curriculumAlignment : ℚ
deriving DecidableEq, Repr

/-- Model of `validateContent`: retrieve curriculum context for the card; with no
documents, default to valid with alignment 0.5; otherwise convert the average
document distance to `curriculumAlignment = max 0 (1 - avgDistance)` and
derive validity, confidence and suggestions from it.  The argument is the
outcome of the internal `retrieveContext` search (which never throws). -/
def validateContent (searchResult : Option (List ChromaDoc)) : Validation :=
  let context := retrieveContext searchResult
  if context.documents.length = 0 then
    { isValid := true, confidence := 1/2,
      suggestions := ["No specific curriculum content found for validation"],
      curriculumAlignment := 1/2 }
  else
    let avgDistance : ℚ :=
      ((context.documents.map distOr1).sum) / (context.documents.length : ℚ)
    let curriculumAlignment : ℚ := max 0 (1 - avgDistance)
    let isValid := curriculumAlignment > 3/10
    let confidence := min (95/100) (curriculumAlignment * (12/10))
    let s1 : List String :=
      if curriculumAlignment < 1/2 then
        ["Consider aligning content more closely with curriculum standards"]
      else []
    let tops :=
      (firstDedup ((context.documents.filterMap (fun d => d.topic)).filter
        (fun s => ¬ s = ""))).take 3
    let s2 : List String :=
      if context.documents.length > 0 ∧ tops.length > 0 then
        ["Consider incorporating concepts from: " ++ joinSep ", " tops]
      else []
    { isValid := isValid, confidence := confidence, suggestions := s1 ++ s2,
      curriculumAlignment := curriculumAlignment }

/-- The record returned by `generateRAGEnhancedContent`. -/
structure RagResult where
  enhancedPrompt : String
  context : RetrievalContext
  validation : Option Validation
deriving DecidableEq, Repr

/-- Model of `generateRAGEnhancedContent`: retrieve context, append it to the prompt
when non-empty, and validate the prompt when documents were found.  All
internal failures are caught, so the call never throws. -/
def generateRAGEnhancedContent (prompt : String)
    (searchResult valSearchResult : Option (List ChromaDoc)) : RagResult :=
  let context := retrieveContext searchResult
  let enhancedPrompt :=
    if ¬ context.relevantContent = "" then
      prompt ++ "\n\nRelevant curriculum context:\n" ++ context.relevantContent ++
        "\n\nPlease ensure content aligns with the curriculum standards above."
    else prompt
  let validation :=
    if context.documents.length > 0 then some (validateContent valSearchResult) else none
  { enhancedPrompt := enhancedPrompt, context := context, validation := validation }

/-- The status record returned by `checkChromaDBStatus` (never throws). -/
structure ChromaStatus where
  available : Bool
  collectionExists : Bool
  documentCount : ℕ
  message : String
deriving DecidableEq, Repr

/-- Model of `checkChromaDBStatus`: report unavailable when the connection test
fails; otherwise report the collection stats. -/
def checkChromaDBStatus (connected : Bool) (statsAvailable : Bool)
    (docCount : ℕ) : ChromaStatus :=
  if ¬ connected then
    { available := false, collectionExists := false, documentCount := 0,
      message := "ChromaDB service is not available" }
  else if statsAvailable then
    { available := true, collectionExists := true, documentCount := docCount,
      message := "ChromaDB ready with " ++ Nat.repr docCount ++ " curriculum documents" }
  else
    { available := true, collectionExists := false, documentCount := 0,
      message := "ChromaDB collection not found" }

/-! ## Content Orchestrator (`data/ai-content.ts`) -/

/-- Model of `ContentCard` from `api-client.ts`. -/
structure ContentCard where
  title : String
  body : String
  card_type : String
deriving DecidableEq, Repr

/-- Model of `AIContentCard`: a `ContentCard` optionally decorated with an image, a
validation record and the retrieval context. -/
structure AIContentCard where
  title : String
  body : String
  card_type : String
  image : Option String := none
  validation : Option Validation := none
  ragContext : Option RetrievalContext := none
deriving DecidableEq, Repr

/-- Model of `word.charAt(0).toUpperCase() + word.slice(1)`. -/
def capitalizeWord (w : String) : String :=
  match w.toList with
  | [] => ""
  | c :: rest => String.mk (c.toUpper :: rest)

/-- Model of `formatTitle`: split the id on `'-'`, capitalize each word, join with
spaces. -/
def formatTitle (id : String) : String :=
  joinSep " " ((id.splitOn "-").map capitalizeWord)

/-- The keyword list of `shouldHaveImage`. -/
def imageKeywords : List String :=
  ["diagram", "picture", "image", "chart", "graph", "illustration",
   "visual", "map", "timeline", "shape", "geometry", "animal", "plant"]

/-- Model of `shouldHaveImage`: does the lower-cased title+body contain any keyword? -/
def shouldHaveImage (title body : String) : Bool :=
  let text := (title ++ " " ++ body).toLower
  imageKeywords.any (fun keyword => jsIncludes text keyword)

/-- The placeholder image URL attached to AI cards. -/
def placeholderImage : String := "/placeholder.svg?height=200&width=400"

/-- Model of `getFallbackContent`: the deterministic three-card static fallback
bundle (introduction, key concepts, summary).  The HTML bodies are the
source's template literals with their interpolations. -/
def getFallbackContent (subtopicId : String) (_topicId : String)
    (subjectId : String) : List AIContentCard :=
  [{ title := "Introduction to " ++ formatTitle subtopicId,
     body := "<p>Welcome to this lesson on " ++ formatTitle subtopicId ++ "!</p>" ++
       "<p>This topic is an important part of " ++ formatTitle subjectId ++
       " education.</p>" ++
       "<p>Key learning objectives for this lesson:</p>" ++
       "<ul class=\"list-disc pl-6 my-4 space-y-2\">" ++
       "<li>Understand the basic concepts</li>" ++
       "<li>Learn practical applications</li>" ++
       "<li>Practice with examples</li>" ++
       "<li>Apply knowledge to solve problems</li></ul>" ++
       "<div class=\"bg-blue-50 p-4 rounded-md my-4 border-l-4 border-blue-400\">" ++
       "<p class=\"font-semibold\">Note: Enhanced AI content will be available when the AI service is running.</p></div>",
     card_type := "introduction" },
   { title := "Key Concepts in " ++ formatTitle subtopicId,
     body := "<p>Let\x27s explore the fundamental concepts you\x27ll learn in this lesson:</p>" ++
       "<div class=\"space-y-4 my-4\">" ++
       "<div class=\"bg-gray-50 p-3 rounded-md\"><h4 class=\"font-semibold mb-2\">Core Principles</h4>" ++
       "<p>Understanding the underlying principles helps build a solid foundation.</p></div>" ++
       "<div class=\"bg-gray-50 p-3 rounded-md\"><h4 class=\"font-semibold mb-2\">Real-World Applications</h4>" ++
       "<p>See how these concepts apply to everyday situations and future learning.</p></div>" ++
       "<div class=\"bg-gray-50 p-3 rounded-md\"><h4 class=\"font-semibold mb-2\">Practice Opportunities</h4>" ++
       "<p>Apply what you learn through guided exercises and examples.</p></div></div>",
     card_type := "concepts" },
   { title := "Summary and Next Steps",
     body := "<p>Great job working through this lesson on " ++ formatTitle subtopicId ++ "!</p>" ++
       "<p>Remember these key points:</p>" ++
       "<ul class=\"list-disc pl-6 my-4 space-y-2\">" ++
       "<li>Practice regularly to reinforce your learning</li>" ++
       "<li>Ask questions when you need clarification</li>" ++
       "<li>Connect new concepts to what you already know</li>" ++
       "<li>Look for patterns and relationships</li></ul>" ++
       "<div class=\"bg-green-50 p-4 rounded-md my-4 border-l-4 border-green-400\">" ++
       "<p class=\"font-semibold\">Ready for the quiz? Test your understanding of " ++
       formatTitle subtopicId ++ "!</p></div>",
     card_type := "summary" }]

/-- Decorate a plain AI card as the non-RAG branches do: attach the
placeholder image when the text suggests one, no validation, no context. -/
def plainEnhance (c : ContentCard) : AIContentCard :=
  { title := c.title, body := c.body, card_type := c.card_type,
    image := if shouldHaveImage c.title c.body then some placeholderImage else none }

/-- One content request's external world: the outcome of each upstream call
`getAIContentForSubtopic` and its helpers can make.  `Except.error` marks a
call that throws (rejects). -/
structure OrchestratorEnv where
  /-- outcome of `apiClient.checkHealth()` inside `checkAiServiceStatus`:
  `error` = the fetch threw, `ok b` = a response with `model_loaded = b`. -/
  health : Except Unit Bool
  /-- `chromaClient.testConnection()` outcome inside `checkChromaDBStatus`. -/
  chromaConnected : Bool
  /-- `getCollectionStats().isAvailable` inside `checkChromaDBStatus`. -/
  chromaStatsAvailable : Bool
  /-- `getCollectionStats().totalDocuments`. -/
  chromaDocCount : ℕ
  /-- search outcome of `generateRAGEnhancedContent`'s `retrieveContext`. -/
  ragSearch : Option (List ChromaDoc)
  /-- search outcome of `generateRAGEnhancedContent`'s internal validation. -/
  ragValSearch : Option (List ChromaDoc)
  /-- `generateContentForSubtopic` inside `generateRAGEnhancedContentCards`'s `try`. -/
  genRag : Except Unit (List ContentCard)
  /-- `generateContentForSubtopic` inside `generateRAGEnhancedContentCards`'s `catch`. -/
  genRagFallback : Except Unit (List ContentCard)
  /-- the tier-4 `generateContentForSubtopic` (no retrieval). -/
  genPlain : Except Unit (List ContentCard)
  /-- per-card search outcome of `validateContent`'s `retrieveContext`. -/
  valSearch : ℕ → Option (List ChromaDoc)

/-- Model of `generateRAGEnhancedContentCards`: enhance the prompt via retrieval,
generate cards, and attach to the `i`-th card a validation record and the
retrieval context; if generation throws, fall back to plain generation
(whose failure propagates to the caller). -/
def generateRAGEnhancedContentCards (env : OrchestratorEnv)
    (subtopicId _topicId subjectId gradeId : String) (numCards : ℕ) :
    Except Unit (List AIContentCard) :=
  let contentPrompt := "Generate " ++ Nat.repr numCards ++
    " educational content cards for " ++ formatTitle subtopicId ++ " in " ++
    formatTitle subjectId ++ " for " ++ gradeId
  let ragResult := generateRAGEnhancedContent contentPrompt env.ragSearch env.ragValSearch
  match env.genRag with
  | .ok aiContent =>
    .ok (aiContent.enum.map (fun ic =>
      { title := ic.2.title, body := ic.2.body, card_type := ic.2.card_type,
        image := if shouldHaveImage ic.2.title ic.2.body then some placeholderImage else none,
        validation := some (validateContent (env.valSearch ic.1)),
        ragContext := some ragResult.context }))
  | .error _ =>
    match env.genRagFallback with
    | .ok aiContent => .ok (aiContent.map plainEnhance)
    | .error e => .error e

/-- Model of `getAIContentForSubtopic`: tier 1 cache hit; tier-2 availability check
demoting straight to the static fallback; tier 3 RAG-enhanced generation
when ChromaDB has a collection; tier 4 plain generation otherwise; the
outer `catch` demotes any thrown error to the static fallback.  Every
successful tier's bundle is cached.  Returns the result (an `Except` that,
as the theorems show, is always `ok`) and the updated cache state. -/
def getAIContentForSubtopic (env : OrchestratorEnv)
    (subtopicId topicId subjectId gradeId : String) (numCards : ℕ) (now : ℤ)
    (st : CacheState (List AIContentCard)) :
    Except Unit (List AIContentCard) × CacheState (List AIContentCard) :=
  match getCachedContent topicId subtopicId subjectId gradeId numCards now st with
  | (some cachedContent, st1) => (.ok cachedContent, st1)
  | (none, st1) =>
    let serviceStatus := checkAiServiceStatus env.health
    if ¬ serviceStatus.available ∨ ¬ serviceStatus.modelLoaded then
      let fallbackContent := getFallbackContent subtopicId topicId subjectId
      (.ok fallbackContent,
       cacheContent topicId subtopicId subjectId gradeId fallbackContent numCards now st1)
    else
      let chromaStatus :=
        checkChromaDBStatus env.chromaConnected env.chromaStatsAvailable env.chromaDocCount
      let enhancedContent : Except Unit (List AIContentCard) :=
        if chromaStatus.available ∧ chromaStatus.collectionExists then
          generateRAGEnhancedContentCards env subtopicId topicId subjectId gradeId numCards
        else
          env.genPlain.map (fun cs => cs.map plainEnhance)
      match enhancedContent with
      | .ok cs =>
        (.ok cs, cacheContent topicId subtopicId subjectId gradeId cs numCards now st1)
      | .error _ =>
        let fallbackContent := getFallbackContent subtopicId topicId subjectId
        (.ok fallbackContent,
         cacheContent topicId subtopicId subjectId gradeId fallbackContent numCards now st1)

/-! ## Lesson Progression State Machine (`app/content/.../page.tsx`) -/

/-- Model of `ContentState` from the content page. -/
inductive ContentState
  | intro | content | thankYou | mainQuiz | mainQuizReview
  | examPractice | examReview | completion
deriving DecidableEq, Repr

/-- Model of `AIQuizQuestion`'s `question_type`. -/
inductive QuestionType | multipleChoice | fillBlank | trueFalse
deriving DecidableEq, Repr

/-- Model of `AIQuizQuestion` (the fields the state machine reads). -/
structure AIQuizQuestion where
  question : String
  question_type : QuestionType
  options : Option (List String) := none
  correct_answer : String
  explanation : String
deriving DecidableEq, Repr

/-- The content bundles a lesson session holds: `content`, `mainQuiz` and
`examQuiz` state; `introContent` and `thankYouContent` are fixed one-card
arrays built from topic metadata, so only their length (1) matters here. -/
structure LessonData where
  content : List AIContentCard
  mainQuiz : List AIQuizQuestion
  examQuiz : List AIQuizQuestion
deriving Repr

/-- Model of `currentContent.length` per state: `intro`/`thank-you` hold the fixed
one-card arrays, quizzes and reviews share their quiz's question list, and
the `default` branch (`completion`) is the empty array. -/
def currentLen (d : LessonData) : ContentState → ℕ
  | .intro => 1
  | .content => d.content.length
  | .thankYou => 1
  | .mainQuiz => d.mainQuiz.length
  | .mainQuizReview => d.mainQuiz.length
  | .examPractice => d.examQuiz.length
  | .examReview => d.examQuiz.length
  | .completion => 0

/-- The React state the handlers read and write: the current `ContentState`,
the card cursor, and the `Record<number, string>` / `Record<number, boolean>`
answer and result maps (modelled as association lists). -/
structure MachineState where
  contentState : ContentState
  currentCardIndex : ℕ
  quizAnswers : List (ℕ × String)
  quizResults : List (ℕ × Bool)
deriving DecidableEq, Repr

/-- Model of `quizAnswers[index]` lookup. -/
def recordGet {β : Type} (r : List (ℕ × β)) (i : ℕ) : Option β :=
  (r.find? (fun p => p.1 = i)).map Prod.snd

/-- Model of `{...record, [i]: v}` — overwrite the index, keeping its slot. -/
def recordSet {β : Type} (r : List (ℕ × β)) (i : ℕ) (v : β) : List (ℕ × β) :=
  if r.any (fun p => p.1 = i) then r.map (fun p => if p.1 = i then (i, v) else p)
  else r ++ [(i, v)]

/-- Model of `evaluateQuiz`: `results[index] = quizAnswers[index] === question.correct_answer`
for every question (an unanswered index compares unequal). -/
def evaluateQuiz (quizAnswers : List (ℕ × String)) (quiz : List AIQuizQuestion) :
    List (ℕ × Bool) :=
  quiz.enum.map (fun iq => (iq.1, recordGet quizAnswers iq.1 = some iq.2.correct_answer))

/-- Model of `handleAnswerSelect`: overwrite the selection for a question index. -/
def handleAnswerSelect (questionIndex : ℕ) (answer : String) (s : MachineState) :
    MachineState :=
  { s with quizAnswers := recordSet s.quizAnswers questionIndex answer }

/-- Model of `handleNextCard`: advance the cursor while `currentCardIndex <
currentContent.length - 1` (JavaScript number comparison, hence over `ℤ`);
at the last card, switch on the state: each case moves to the next state,
resetting the cursor to 0 — except `exam-review → completion`, which leaves
the cursor untouched — clearing `quizAnswers` on entry to the quiz states and
scoring via `evaluateQuiz` on entry to the review states; `completion` has no
case, so nothing changes. -/
def handleNextCard (d : LessonData) (s : MachineState) : MachineState :=
  if (s.currentCardIndex : ℤ) < (currentLen d s.contentState : ℤ) - 1 then
    { s with currentCardIndex := s.currentCardIndex + 1 }
  else
    match s.contentState with
    | .intro => { s with contentState := .content, currentCardIndex := 0 }
    | .content => { s with contentState := .thankYou, currentCardIndex := 0 }
    | .thankYou => { s with contentState := .mainQuiz, currentCardIndex := 0,
                            quizAnswers := [] }
    | .mainQuiz => { s with contentState := .mainQuizReview, currentCardIndex := 0,
                            quizResults := evaluateQuiz s.quizAnswers d.mainQuiz }
    | .mainQuizReview => { s with contentState := .examPractice, currentCardIndex := 0,
                                  quizAnswers := [] }
    | .examPractice => { s with contentState := .examReview, currentCardIndex := 0,
                                quizResults := evaluateQuiz s.quizAnswers d.examQuiz }
    | .examReview => { s with contentState := .completion }
    | .completion => s

/-- Model of `Object.values(quizResults).filter(r => r).length`. -/
def countCorrect (quizResults : List (ℕ × Bool)) : ℕ :=
  (quizResults.filter (fun p => p.2)).length

/-- The `main-quiz-review` effect's score:
`Math.round((correctAnswers / totalQuestions) * 100)`. -/
def quizScore (quizResults : List (ℕ × Bool)) (totalQuestions : ℕ) : ℤ :=
  jsRound (((countCorrect quizResults : ℚ) / (totalQuestions : ℚ)) * 100)

/-- The `main-quiz-review` effect's awarded XP: `Math.round(30 * (score / 100))`. -/
def quizXp (score : ℤ) : ℤ :=
  jsRound (30 * ((score : ℚ) / 100))

/-! ## Derived definitions used to state the claims -/

/-- A sequence of `get` calls (each with its own `Date.now()`), applied in
order — the "any sequence of get calls" the statistics claims quantify over. -/
def runGets {α : Type} (ops : List (CacheKey × ℤ)) (st : CacheState α) : CacheState α :=
  ops.foldl (fun s op => (cacheGet op.1 op.2 s).2) st

/-- The successor of each lesson state in the spec's fixed forward order
`intro → content → thankYou → mainQuiz → mainQuizReview → examPractice →
examReview → completion` (`completion` is terminal).  Written from the
spec's order, to be compared with `handleNextCard`'s transitions. -/
def nextState : ContentState → ContentState
  | .intro => .content
  | .content => .thankYou
  | .thankYou => .mainQuiz
  | .mainQuiz => .mainQuizReview
  | .mainQuizReview => .examPractice
  | .examPractice => .examReview
  | .examReview => .completion
  | .completion => .completion

/-! ## Concrete fixtures used by witnesses and counterexamples -/

/-- A concrete content-type cache key (key string `content:s:g:t:u`). -/
def keyTU : CacheKey :=
  { type := .content, topicId := "t", subtopicId := "u", subjectId := "s", gradeId := "g" }

/-- A one-entry cache state whose entry expires at time 100. -/
def stExp : CacheState ℕ :=
  ⟨[("content:s:g:t:u", ⟨7, 0, 100, 0, 0⟩)], [], 0, 0⟩

/-- A cache state with an empty in-memory map whose localStorage mirror
holds a live record for `content:s:g:t:u`. -/
def stMirror : CacheState ℕ :=
  ⟨[], [("smartclass_cache_content:s:g:t:u", ⟨9, 0, 100, 2, 0⟩)], 4, 3⟩

/-- Cache keys `content:s:g:t<i>:u` for filling the store to capacity. -/
def evictKey (i : ℕ) : CacheKey :=
  { type := .content, topicId := "t" ++ Nat.repr i, subtopicId := "u",
    subjectId := "s", gradeId := "g" }

/-- Entry number `i`: payload `i`, `lastAccessed = i`. -/
def evictEntry (i : ℕ) : CacheEntry ℕ :=
  ⟨i, 0, 1000000, 0, (i : ℤ)⟩

/-- A cache state filled to exactly `MAX_ENTRIES = 100` distinct keys, entry
`i` least recently accessed for the smallest `i`. -/
def evictCache : CacheState ℕ :=
  ⟨(List.range 100).map (fun i => (generateKey (evictKey i), evictEntry i)), [], 0, 0⟩

/-- A key whose `topicId` is `algebra` but whose `subjectId` is `math`
(key string `content:math:g1:algebra:s1`). -/
def crossKey : CacheKey :=
  { type := .content, topicId := "algebra", subtopicId := "s1",
    subjectId := "math", gradeId := "g1" }

/-- A one-entry cache state holding `crossKey`'s entry. -/
def crossState : CacheState ℕ :=
  ⟨[(generateKey crossKey, ⟨7, 0, 100, 0, 0⟩)], [], 0, 0⟩

/-- Keys `content:s:g:t2:u` and `content:s:g:t3:u`, absent from `hitState`. -/
def missKey1 : CacheKey :=
  { type := .content, topicId := "t2", subtopicId := "u", subjectId := "s", gradeId := "g" }

def missKey2 : CacheKey :=
  { type := .content, topicId := "t3", subtopicId := "u", subjectId := "s", gradeId := "g" }

/-- The state reached from a fresh cache by one `set` of `keyTU`. -/
def hitState : CacheState ℕ :=
  cacheSet keyTU 1 100 0 ⟨[], [], 0, 0⟩

/-- An environment in which the AI service's health check throws and every
generation call rejects. -/
def envDown : OrchestratorEnv :=
  { health := .error (), chromaConnected := false, chromaStatsAvailable := false,
    chromaDocCount := 0, ragSearch := none, ragValSearch := none,
    genRag := .error (), genRagFallback := .error (), genPlain := .error (),
    valSearch := fun _ => none }

/-- A previously cached content card carrying no validation record. -/
def cachedCard : AIContentCard :=
  { title := "cached", body := "b", card_type := "ct" }

/-- A cache state already holding a bundle for the request
`(subtopic u, topic t, subject subj, grade g, 5 cards)` — its key string is
`content:subj:g:t:u:5`. -/
def warmState : CacheState (List AIContentCard) :=
  ⟨[("content:subj:g:t:u:5", ⟨[cachedCard], 0, 100, 0, 0⟩)], [], 0, 0⟩

/-- An environment in which the AI service is healthy and ChromaDB reports
an existing collection, but (for the counterexample) generation returns an
empty bundle. -/
def envHealthy : OrchestratorEnv :=
  { health := .ok true, chromaConnected := true, chromaStatsAvailable := true,
    chromaDocCount := 3, ragSearch := none, ragValSearch := none,
    genRag := .ok [], genRagFallback := .error (), genPlain := .error (),
    valSearch := fun _ => none }

/-- One AI-generated content card as returned by the generation gateway. -/
def genCard : ContentCard := { title := "t1", body := "b1", card_type := "c" }

/-- `envHealthy` with one successfully generated card. -/
def envHealthyGen : OrchestratorEnv :=
  { health := .ok true, chromaConnected := true, chromaStatsAvailable := true,
    chromaDocCount := 3, ragSearch := none, ragValSearch := none,
    genRag := .ok [genCard], genRagFallback := .error (), genPlain := .error (),
    valSearch := fun _ => none }

/-! ## Association-list lemmas -/

lemma mapGet_nil {β : Type} (k : String) : mapGet ([] : List (String × β)) k = none := rfl

lemma mapGet_cons {β : Type} (p : String × β) (m : List (String × β)) (k : String) :
    mapGet (p :: m) k = if p.1 = k then some p.2 else mapGet m k := by
  by_cases h : p.1 = k
  · simp [mapGet, List.find?_cons_of_pos, h]
  · simp [mapGet, List.find?_cons_of_neg, h]

lemma mapGet_append {β : Type} (m₁ m₂ : List (String × β)) (k : String) :
    mapGet (m₁ ++ m₂) k = (mapGet m₁ k).or (mapGet m₂ k) := by
  induction m₁ with
  | nil => simp [mapGet_nil]
  | cons p m₁ ih =>
    rw [List.cons_append, mapGet_cons, mapGet_cons]
    by_cases h : p.1 = k <;> simp [h, ih]

lemma mapGet_map_subst {β : Type} (m : List (String × β)) (k k' : String) (v : β)
    (h : ¬ k' = k) :
    mapGet (m.map (fun p => if p.1 = k then (k, v) else p)) k' = mapGet m k' := by
  induction m with
  | nil => rfl
  | cons p m ih =>
    rw [List.map_cons, mapGet_cons, mapGet_cons]
    by_cases hp : p.1 = k
    · have : ¬ k = k' := fun hh => h hh.symm
      simp [hp, this, ih]
    · simp [hp, ih]

lemma mapGet_map_subst_self {β : Type} (m : List (String × β)) (k : String) (v : β)
    (h : m.any (fun p => p.1 = k)) :
    mapGet (m.map (fun p => if p.1 = k then (k, v) else p)) k = some v := by
  induction m with
  | nil => simp at h
  | cons p m ih =>
    rw [List.map_cons, mapGet_cons]
    by_cases hp : p.1 = k
    · simp [hp]
    · simp only [List.any_cons, Bool.or_eq_true, decide_eq_true_eq] at h
      rcases h with h | h

      · exact absurd h hp
      · simp [hp, ih h]

lemma mapGet_mapSet {β : Type} (m : List (String × β)) (k k' : String) (v : β) :
    mapGet (mapSet m k v) k' = if k' = k then some v else mapGet m k' := by
  unfold mapSet
  by_cases hin : m.any (fun p => p.1 = k)
  · rw [if_pos hin]
    by_cases hk : k' = k
    · subst hk
      rw [if_pos rfl, mapGet_map_subst_self m k' v hin]
    · rw [if_neg hk, mapGet_map_subst m k k' v hk]
  · rw [if_neg hin, mapGet_append]
    by_cases hk : k' = k
    · subst hk
      have hnone : mapGet m k' = none := by
        induction m with
        | nil => rfl
        | cons p m ih =>
          simp only [List.any_cons, Bool.or_eq_true, decide_eq_true_eq, not_or] at hin
          rw [mapGet_cons, if_neg hin.1]
          exact ih hin.2
      simp [hnone, mapGet_cons]
    · have : mapGet [(k, v)] k' = none := by
        rw [mapGet_cons, if_neg (fun hh => hk hh.symm)]
        rfl
      simp [this, hk]

lemma mapGet_mapSet_self {β : Type} (m : List (String × β)) (k : String) (v : β) :
    mapGet (mapSet m k v) k = some v := by
  rw [mapGet_mapSet, if_pos rfl]

lemma mapGet_mapDelete {β : Type} (m : List (String × β)) (k k' : String) :
    mapGet (mapDelete m k) k' = if k' = k then none else mapGet m k' := by
  induction m with
  | nil => simp [mapGet_nil, mapDelete]
  | cons p m ih =>
    by_cases hp : p.1 = k
    · have h1 : mapDelete (p :: m) k = mapDelete m k := by
        unfold mapDelete
        rw [List.filter_cons_of_neg (by simp [hp])]
      rw [h1, ih]
      by_cases hk : k' = k
      · simp [hk]
      · rw [mapGet_cons, if_neg (show ¬ p.1 = k' by rw [hp]; exact fun hh => hk hh.symm)]
    · have h1 : mapDelete (p :: m) k = p :: mapDelete m k := by
        unfold mapDelete
        rw [List.filter_cons_of_pos (by simp [hp])]
      rw [h1, mapGet_cons, mapGet_cons, ih]
      by_cases hk : k' = k
      · subst hk
        simp [hp]
      · simp [hk]

lemma mapGet_filter {β : Type} (pred : String → Bool) (m : List (String × β)) (k : String) :
    mapGet (m.filter (fun p => pred p.1)) k =
      if pred k then mapGet m k else none := by
  induction m with
  | nil => simp [mapGet_nil]
  | cons p m ih =>
    by_cases hp : pred p.1
    · rw [List.filter_cons_of_pos (by simpa using hp), mapGet_cons, mapGet_cons]
      by_cases hk : p.1 = k
      · subst hk
        simp [hp]
      · simp [hk, ih]
    · rw [List.filter_cons_of_neg (by simpa using hp), mapGet_cons, ih]
      by_cases hk : p.1 = k
      · subst hk
        simp [hp]
      · simp [hk]

lemma mapGet_isSome_of_mem {β : Type} (m : List (String × β)) (q : String × β)
    (hq : q ∈ m) : (mapGet m q.1).isSome = true := by
  induction m with
  | nil => cases hq
  | cons p m ih =>
    rw [mapGet_cons]
    by_cases hp : p.1 = q.1
    · simp [hp]
    · rcases List.mem_cons.mp hq with h | h
      · exact absurd (congrArg Prod.fst h.symm) hp
      · simp [hp, ih h]

lemma length_mapSet {β : Type} (m : List (String × β)) (k : String) (v : β) :
    (mapSet m k v).length =
      if m.any (fun p => p.1 = k) then m.length else m.length + 1 := by
  unfold mapSet
  split <;> simp

lemma mapDelete_of_absent {β : Type} (m : List (String × β)) (k : String)
    (h : ∀ p ∈ m, ¬ p.1 = k) : mapDelete m k = m := by
  unfold mapDelete
  exact List.filter_eq_self.mpr (fun p hp => by simpa using h p hp)

lemma length_mapDelete {β : Type} (m : List (String × β)) (k : String)
    (hno : (m.map Prod.fst).Nodup) (hmem : (mapGet m k).isSome = true) :
    (mapDelete m k).length + 1 = m.length := by
  induction m with
  | nil => simp [mapGet_nil] at hmem
  | cons p m ih =>
    rw [List.map_cons, List.nodup_cons] at hno
    by_cases hp : p.1 = k
    · have habs : ∀ q ∈ m, ¬ q.1 = k := by
        intro q hq hqk
        apply hno.1
        have hmem2 : q.1 ∈ List.map Prod.fst m := List.mem_map_of_mem Prod.fst hq
        rw [hqk] at hmem2
        rw [hp]
        exact hmem2
      have h1 : mapDelete (p :: m) k = mapDelete m k := by
        unfold mapDelete
        rw [List.filter_cons_of_neg (by simp [hp])]
      rw [h1, mapDelete_of_absent m k habs]
      simp
    · rw [mapGet_cons, if_neg hp] at hmem
      have h1 : mapDelete (p :: m) k = p :: mapDelete m k := by
        unfold mapDelete
        rw [List.filter_cons_of_pos (by simp [hp])]
      rw [h1]
      have := ih hno.2 hmem
      simp only [List.length_cons]
      omega

/-! ## Lemmas about the LRU scan and key strings -/

lemma lruStep_none {α : Type} (p : String × CacheEntry α) :
    lruStep none p = some (p.1, p.2.lastAccessed) := rfl

lemma lruStep_some {α : Type} (k : String) (t : ℤ) (p : String × CacheEntry α) :
    lruStep (some (k, t)) p =
      if p.2.lastAccessed < t then some (p.1, p.2.lastAccessed) else some (k, t) := rfl

lemma findOldest_foldl_spec {α : Type} :
    ∀ (l : List (String × CacheEntry α)) (k : String) (t : ℤ),
    ∃ k' t',
      l.foldl lruStep (some (k, t)) = some (k', t') ∧
      t' ≤ t ∧
      ((k' = k ∧ t' = t) ∨ ∃ q ∈ l, q.1 = k' ∧ q.2.lastAccessed = t') ∧
      ∀ q ∈ l, t' ≤ q.2.lastAccessed := by
  intro l
  induction l with
  | nil =>
    intro k t
    exact ⟨k, t, rfl, le_refl t, Or.inl ⟨rfl, rfl⟩, by simp⟩
  | cons p l ih =>
    intro k t
    rw [List.foldl_cons, lruStep_some]
    by_cases h : p.2.lastAccessed < t
    · rw [if_pos h]
      obtain ⟨k', t', heq, hle, horig, hmin⟩ := ih p.1 p.2.lastAccessed
      refine ⟨k', t', heq, le_trans hle (le_of_lt h), ?_, ?_⟩
      · rcases horig with ⟨hk, ht⟩ | ⟨q, hq, hq1, hq2⟩
        · exact Or.inr ⟨p, List.mem_cons_self p l, hk.symm, ht.symm⟩
        · exact Or.inr ⟨q, List.mem_cons_of_mem p hq, hq1, hq2⟩
      · intro q hq
        rcases List.mem_cons.mp hq with h1 | h1
        · rw [h1]; exact hle
        · exact hmin q h1
    · rw [if_neg h]
      obtain ⟨k', t', heq, hle, horig, hmin⟩ := ih k t
      refine ⟨k', t', heq, hle, ?_, ?_⟩
      · rcases horig with ⟨hk, ht⟩ | ⟨q, hq, hq1, hq2⟩
        · exact Or.inl ⟨hk, ht⟩
        · exact Or.inr ⟨q, List.mem_cons_of_mem p hq, hq1, hq2⟩
      · intro q hq
        rcases List.mem_cons.mp hq with h1 | h1
        · rw [h1]; exact le_trans hle (le_of_not_lt h)
        · exact hmin q h1

lemma findOldest_spec {α : Type} (l : List (String × CacheEntry α)) (h : l ≠ []) :
    ∃ q ∈ l, findOldest l = some q.1 ∧
      ∀ r ∈ l, q.2.lastAccessed ≤ r.2.lastAccessed := by
  match l with
  | p :: l' =>
    obtain ⟨k', t', heq, hle, horig, hmin⟩ :=
      findOldest_foldl_spec (α := α) l' p.1 p.2.lastAccessed
    have hfold : findOldest (p :: l') = some k' := by
      unfold findOldest
      rw [List.foldl_cons, lruStep_none, heq]
      rfl
    rcases horig with ⟨hk, ht⟩ | ⟨q, hq, hq1, hq2⟩
    · refine ⟨p, List.mem_cons_self p l', by rw [hfold, hk], ?_⟩
      intro r hr
      rcases List.mem_cons.mp hr with h1 | h1
      · rw [h1]
      · rw [← ht]
        exact hmin r h1
    · refine ⟨q, List.mem_cons_of_mem p hq, by rw [hfold, hq1], ?_⟩
      intro r hr
      rw [hq2]
      rcases List.mem_cons.mp hr with h1 | h1
      · rw [h1]; exact hle
      · exact hmin r h1

lemma toList_append (a b : String) : (a ++ b).toList = a.toList ++ b.toList := by
  simp [String.toList]

lemma infix_joinColon (l : List String) (s : String) (hs : s ∈ l) :
    s.toList <:+: (joinColon l).toList := by
  induction l with
  | nil => cases hs
  | cons x rest ih =>
    rcases List.mem_cons.mp hs with h | h
    · subst h
      match rest with
      | [] => exact List.infix_refl _
      | y :: rest' =>
        rw [show joinColon (s :: y :: rest') = s ++ ":" ++ joinColon (y :: rest') from rfl]
        rw [toList_append, toList_append]
        exact ⟨[], (":".toList ++ (joinColon (y :: rest')).toList), by simp⟩
    · have hne : rest ≠ [] := List.ne_nil_of_mem h
      match rest, hne with
      | y :: rest', _ =>
        rw [show joinColon (x :: y :: rest') = x ++ ":" ++ joinColon (y :: rest') from rfl]
        have hsuf : (joinColon (y :: rest')).toList <:+: (x ++ ":" ++ joinColon (y :: rest')).toList := by
          rw [toList_append]
          exact (List.suffix_append _ _).isInfix
        exact List.IsInfix.trans (ih h) hsuf


/-! ## Claim C9 — set/get round trip -/

/-- C9: for every cache key `p`, payload `data`, and ttl `t > 0`,
`set(p, data, t)` followed immediately by `get(p)` returns `data`. -/
theorem cacheSet_cacheGet_roundtrip {α : Type} (p : CacheKey) (data : α)
    (ttl now : ℤ) (st : CacheState α) (h : 0 < ttl) :
    (cacheGet p now (cacheSet p data ttl now st)).1 = some data := by
  have hkey : mapGet (cacheSet p data ttl now st).cache (generateKey p) =
      some { data := data, timestamp := now, expiresAt := now + ttl,
             accessCount := 0, lastAccessed := now } := by
    unfold cacheSet
    exact mapGet_mapSet_self _ _ _
  simp only [cacheGet]
  rw [hkey]
  dsimp only
  rw [if_neg (show ¬ now > now + ttl by omega)]
  rfl

/-- Witness for C9 at the concrete key `keyTU`, payload 42 and ttl 7. -/
theorem cacheSet_cacheGet_roundtrip_witness :
    (0 : ℤ) < 7 ∧
    (cacheGet keyTU 0 (cacheSet keyTU (42 : ℕ) 7 0 ⟨[], [], 0, 0⟩)).1 = some 42 :=
  ⟨by decide, cacheSet_cacheGet_roundtrip keyTU 42 7 0 _ (by decide)⟩

/-! ## Claim C5 — expiry on lookup -/

/-- C5 (amended): the expiry test is strict — once `now > expiresAt`
(strictly past the deadline), the next `get` for that key returns absent,
the entry is removed from the store, and `stats().count` decreases by one;
at `now = expiresAt` the source still serves the entry (see the
counterexample). -/
theorem cacheGet_expired_removes {α : Type} (p : CacheKey) (now : ℤ)
    (st : CacheState α) (e : CacheEntry α)
    (wf : (st.cache.map Prod.fst).Nodup)
    (h1 : mapGet st.cache (generateKey p) = some e)
    (h2 : now > e.expiresAt) :
    (cacheGet p now st).1 = none ∧
    mapGet (cacheGet p now st).2.cache (generateKey p) = none ∧
    (getStats (cacheGet p now st).2).totalEntries + 1 = (getStats st).totalEntries := by
  have heq : cacheGet p now st =
      (none,
        { st with
            cache := mapDelete st.cache (generateKey p),
            storage := removeFromStorage st.storage (generateKey p),
            misses := st.misses + 1 }) := by
    simp only [cacheGet]
    rw [h1]
    dsimp only
    rw [if_pos h2]
  rw [heq]
  refine ⟨rfl, ?_, ?_⟩
  · rw [mapGet_mapDelete, if_pos rfl]
  · simp only [getStats]
    exact length_mapDelete st.cache (generateKey p) wf (by rw [h1]; rfl)

/-- Witness for C5 at a concrete expired entry (`expiresAt = 100`, read at
`now = 101`). -/
theorem cacheGet_expired_removes_witness :
    (cacheGet keyTU 101 stExp).1 = none ∧
    mapGet (cacheGet keyTU 101 stExp).2.cache (generateKey keyTU) = none ∧
    (getStats (cacheGet keyTU 101 stExp).2).totalEntries + 1 =
      (getStats stExp).totalEntries :=
  cacheGet_expired_removes keyTU 101 stExp ⟨7, 0, 100, 0, 0⟩
    (by decide) (by decide) (by decide)

/-- Counterexample to C5 as stated: at `now = expiresAt` (so `now ≥
expiresAt`), the source's strict comparison `now > entry.expiresAt` fails,
and the `get` serves the entry as a hit and keeps it in the store instead of
returning absent and removing it. -/
theorem cacheGet_at_expiry_still_serves :
    (100 : ℤ) ≥ (⟨7, 0, 100, 0, 0⟩ : CacheEntry ℕ).expiresAt ∧
    (cacheGet keyTU 100 stExp).1 = some 7 ∧
    (getStats (cacheGet keyTU 100 stExp).2).totalEntries = 1 := by
  decide

/-! ## Claim C10 — durable-mirror revival on in-memory miss -/

/-- C10: when `get` finds no in-memory entry but the localStorage mirror
holds an unexpired entry for the key, `get` reads the mirror, reinserts the
entry into the in-memory store (with `accessCount` bumped and `lastAccessed`
stamped), returns its payload, and counts the call as a hit, not a miss. -/
theorem cacheGet_storage_revival {α : Type} (p : CacheKey) (now : ℤ)
    (st : CacheState α) (e : CacheEntry α)
    (h1 : mapGet st.cache (generateKey p) = none)
    (h2 : mapGet st.storage (storagePrefix ++ generateKey p) = some e)
    (h3 : now < e.expiresAt) :
    (cacheGet p now st).1 = some e.data ∧
    (cacheGet p now st).2.hits = st.hits + 1 ∧
    (cacheGet p now st).2.misses = st.misses ∧
    mapGet (cacheGet p now st).2.cache (generateKey p) =
      some { e with accessCount := e.accessCount + 1, lastAccessed := now } ∧
    (cacheGet p now st).2.storage = st.storage := by
  have hload : loadFromStorage st.storage (generateKey p) now = (some e, st.storage) := by
    simp only [loadFromStorage]
    rw [h2]
    dsimp only
    rw [if_neg (show ¬ now > e.expiresAt by omega)]
  simp only [cacheGet]
  rw [h1]
  dsimp only
  rw [hload]
  dsimp only [processHit]
  refine ⟨rfl, rfl, rfl, ?_, rfl⟩
  exact mapGet_mapSet_self _ _ _

/-- Witness for C10: an empty in-memory map, a mirror holding a live record
read at `now = 50`. -/
theorem cacheGet_storage_revival_witness :
    (cacheGet keyTU 50 stMirror).1 = some 9 ∧
    (cacheGet keyTU 50 stMirror).2.hits = 4 + 1 ∧
    (cacheGet keyTU 50 stMirror).2.misses = 3 ∧
    mapGet (cacheGet keyTU 50 stMirror).2.cache (generateKey keyTU) =
      some ⟨9, 0, 100, 2 + 1, 50⟩ ∧
    (cacheGet keyTU 50 stMirror).2.storage = stMirror.storage :=
  cacheGet_storage_revival keyTU 50 stMirror ⟨9, 0, 100, 2, 0⟩
    (by decide) (by decide) (by decide)

/-! ## Claim C4 — LRU eviction policy -/

/-- C4 (amended): a `set` while the store is below capacity evicts nothing
(the new entry is simply inserted/overwritten); a `set` issued while the
store holds at least `MAX_ENTRIES` entries — even one that only overwrites
an existing key and so would not exceed capacity — evicts exactly one entry,
one whose `lastAccessed` is oldest (no evicted entry was read more recently
than a surviving one). -/
theorem cacheSet_eviction {α : Type} (p : CacheKey) (data : α) (ttl now : ℤ)
    (st : CacheState α) (wf : (st.cache.map Prod.fst).Nodup) :
    (st.cache.length < MAX_ENTRIES →
      (cacheSet p data ttl now st).cache =
        mapSet st.cache (generateKey p)
          { data := data, timestamp := now, expiresAt := now + ttl,
            accessCount := 0, lastAccessed := now }) ∧
    (MAX_ENTRIES ≤ st.cache.length →
      ∃ q ∈ st.cache,
        (∀ r ∈ st.cache, q.2.lastAccessed ≤ r.2.lastAccessed) ∧
        (cacheSet p data ttl now st).cache =
          mapSet (mapDelete st.cache q.1) (generateKey p)
            { data := data, timestamp := now, expiresAt := now + ttl,
              accessCount := 0, lastAccessed := now } ∧
        (mapDelete st.cache q.1).length + 1 = st.cache.length) := by
  constructor
  · intro hlt
    simp only [cacheSet]
    rw [if_neg (show ¬ st.cache.length ≥ MAX_ENTRIES by omega)]
  · intro hge
    have hne : st.cache ≠ [] := by
      intro hnil
      rw [hnil] at hge
      simp [MAX_ENTRIES] at hge
    obtain ⟨q, hq, hfold, hmin⟩ := findOldest_spec st.cache hne
    refine ⟨q, hq, hmin, ?_,
      length_mapDelete st.cache q.1 wf (mapGet_isSome_of_mem st.cache q hq)⟩
    simp only [cacheSet]
    rw [if_pos hge]
    simp only [evictLeastRecentlyUsed]
    rw [hfold]

/-- Witness for C4: on a one-entry store (below capacity) the `set` only
inserts. -/
theorem cacheSet_eviction_witness :
    (cacheSet keyTU (1 : ℕ) 10 0 stExp).cache =
      mapSet stExp.cache (generateKey keyTU) ⟨1, 0, 0 + 10, 0, 0⟩ :=
  (cacheSet_eviction keyTU 1 10 0 stExp (by decide)).1 (by decide)

/-- Counterexample to C4 as stated ("a set that would exceed the maximum
entry count evicts exactly one entry … exactly one eviction per insertion,
never more than needed"): with the store at its capacity of 100, a `set`
that merely overwrites the already-present key `t5` — and therefore would
not exceed the maximum — still evicts the least-recently-used entry `t0`,
dropping the store to 99 entries: an eviction that was not needed. -/
theorem cacheSet_overwrite_at_capacity_evicts :
    evictCache.cache.length = 100 ∧
    (mapGet evictCache.cache (generateKey (evictKey 5))).isSome = true ∧
    (mapGet evictCache.cache (generateKey (evictKey 0))).isSome = true ∧
    (mapGet (cacheSet (evictKey 5) 999 1000 1000 evictCache).cache
      (generateKey (evictKey 0))).isSome = false ∧
    (cacheSet (evictKey 5) 999 1000 1000 evictCache).cache.length = 99 := by
  decide

/-! ## Claim C3 — topic invalidation -/

lemma mapGet_filter_not {β : Type} (pred : String → Bool) (m : List (String × β))
    (k : String) :
    mapGet (m.filter (fun p => !(pred p.1))) k =
      if pred k then none else mapGet m k := by
  have h := mapGet_filter (fun s => !(pred s)) m k
  by_cases hk : pred k
  · simp only [hk, Bool.not_true, if_false, if_true] at h ⊢
    exact h
  · simp only [hk, Bool.not_false, if_true, if_false] at h ⊢
    exact h

/-- C3 (amended): `invalidateTopic(topicId)` removes exactly the entries
whose key *string* contains `topicId` as a substring (`key.includes` in the
source): a key survives if and only if it does not contain `topicId`.  In
particular every entry whose `topicId` component equals `topicId` is
removed (its key contains it as a component) — but entries whose other
components contain `topicId` are removed as well (see the counterexample). -/
theorem invalidateTopic_substring {α : Type} (topicId : String) (st : CacheState α)
    (key : String) (p : CacheKey) :
    (mapGet (invalidateTopic topicId none st).cache key =
      if jsIncludes key topicId then none else mapGet st.cache key) ∧
    (p.topicId = topicId → jsIncludes (generateKey p) topicId = true) := by
  constructor
  · have hcache : (invalidateTopic topicId none st).cache =
        st.cache.filter (fun q => !(jsIncludes q.1 topicId)) := by
      simp only [invalidateTopic]
      simp [Bool.and_true]
    rw [hcache]
    exact mapGet_filter_not (fun s => jsIncludes s topicId) st.cache key
  · intro hpt
    subst hpt
    simp only [jsIncludes, decide_eq_true_eq, generateKey]
    apply infix_joinColon
    simp

/-- Witness for C3 at the concrete state `stExp` and key `keyTU`. -/
theorem invalidateTopic_substring_witness :
    (mapGet (invalidateTopic "t" none stExp).cache "content:s:g:t:u" =
      if jsIncludes "content:s:g:t:u" "t" then none
      else mapGet stExp.cache "content:s:g:t:u") ∧
    jsIncludes (generateKey keyTU) "t" = true :=
  ⟨(invalidateTopic_substring "t" stExp "content:s:g:t:u" keyTU).1,
   (invalidateTopic_substring "t" stExp "content:s:g:t:u" keyTU).2 rfl⟩

/-- Counterexample to C3 as stated: `invalidateTopic("math")` removes the
entry for `crossKey` (key string `content:math:g1:algebra:s1`) although that
entry's `topicId` component is `algebra`, not `math` — the substring match
also fires on the `subjectId` component. -/
theorem invalidateTopic_crossfield_removal :
    crossKey.topicId ≠ "math" ∧
    (mapGet crossState.cache (generateKey crossKey)).isSome = true ∧
    (mapGet (invalidateTopic "math" none crossState).cache
      (generateKey crossKey)).isSome = false := by
  decide

/-! ## Claim C8 — hit-rate statistics -/

/-- Evaluation rule for `Math.round`: `jsRound x = z` whenever
`z ≤ x + 1/2 < z + 1`. -/
lemma jsRound_eq (x : ℚ) (z : ℤ) (h1 : (z : ℚ) ≤ x + 1/2) (h2 : x + 1/2 < z + 1) :
    jsRound x = z := by
  rw [jsRound]
  exact Int.floor_eq_iff.mpr ⟨h1, h2⟩

lemma cacheGet_requests {α : Type} (p : CacheKey) (now : ℤ) (st : CacheState α) :
    (cacheGet p now st).2.hits + (cacheGet p now st).2.misses =
      st.hits + st.misses + 1 := by
  simp only [cacheGet]
  cases hm : mapGet st.cache (generateKey p) with
  | none =>
    rcases hl : loadFromStorage st.storage (generateKey p) now with ⟨o, storage'⟩
    cases o with
    | none =>
      simp only []
      omega
    | some e =>
      simp only [processHit]
      omega
  | some e =>
    by_cases h2 : now > e.expiresAt
    · simp only [if_pos h2]
      omega
    · simp only [if_neg h2, processHit]
      omega

lemma runGets_requests {α : Type} (ops : List (CacheKey × ℤ)) :
    ∀ st0 : CacheState α,
    (runGets ops st0).hits + (runGets ops st0).misses =
      st0.hits + st0.misses + ops.length := by
  induction ops with
  | nil =>
    intro st0
    simp [runGets]
  | cons op ops ih =>
    intro st0
    have hstep : runGets (op :: ops) st0 = runGets ops (cacheGet op.1 op.2 st0).2 := by
      simp [runGets]
    rw [hstep]
    have h1 := ih (cacheGet op.1 op.2 st0).2
    have h2 := cacheGet_requests op.1 op.2 st0
    simp only [List.length_cons]
    omega

/-- C8 (amended): after any sequence of `get` calls, each `get` contributes
exactly one to `hits + misses`, and `stats()` reports `hitRate` equal to
`hits/(hits+misses)*100` *rounded to two decimal places*
(`Math.round(hitRate * 100) / 100` in the source) — not the exact ratio
(see the counterexample); 3 hits and 1 miss still yield exactly 75. -/
theorem runGets_hitRate {α : Type} (ops : List (CacheKey × ℤ)) (st0 : CacheState α)
    (h : 0 < (runGets ops st0).hits + (runGets ops st0).misses) :
    (getStats (runGets ops st0)).hitRate =
      (jsRound ((((runGets ops st0).hits : ℚ) /
          (((runGets ops st0).hits : ℚ) + ((runGets ops st0).misses : ℚ)) * 100) * 100) : ℚ) / 100 ∧
    (runGets ops st0).hits + (runGets ops st0).misses =
      st0.hits + st0.misses + ops.length := by
  refine ⟨?_, runGets_requests ops st0⟩
  simp only [getStats]
  rw [if_pos h]
  have hcast : (((runGets ops st0).hits + (runGets ops st0).misses : ℕ) : ℚ) =
      ((runGets ops st0).hits : ℚ) + ((runGets ops st0).misses : ℚ) := by
    push_cast
    ring
  rw [hcast]

/-- Witness for C8: from a fresh cache holding one entry, three hits and one
miss give `hits + misses = 4` and a reported hit rate of exactly 75. -/
theorem runGets_hitRate_witness :
    ((getStats (runGets [(keyTU, 0), (keyTU, 0), (keyTU, 0), (missKey1, 0)] hitState)).hitRate =
      (jsRound ((((runGets [(keyTU, 0), (keyTU, 0), (keyTU, 0), (missKey1, 0)] hitState).hits : ℚ) /
          (((runGets [(keyTU, 0), (keyTU, 0), (keyTU, 0), (missKey1, 0)] hitState).hits : ℚ) +
           ((runGets [(keyTU, 0), (keyTU, 0), (keyTU, 0), (missKey1, 0)] hitState).misses : ℚ)) * 100) * 100) : ℚ) / 100 ∧
     (runGets [(keyTU, 0), (keyTU, 0), (keyTU, 0), (missKey1, 0)] hitState).hits +
       (runGets [(keyTU, 0), (keyTU, 0), (keyTU, 0), (missKey1, 0)] hitState).misses =
       hitState.hits + hitState.misses + 4) ∧
    (runGets [(keyTU, 0), (keyTU, 0), (keyTU, 0), (missKey1, 0)] hitState).hits = 3 ∧
    (runGets [(keyTU, 0), (keyTU, 0), (keyTU, 0), (missKey1, 0)] hitState).misses = 1 ∧
    (getStats (runGets [(keyTU, 0), (keyTU, 0), (keyTU, 0), (missKey1, 0)] hitState)).hitRate = 75 := by
  have h3 : (runGets [(keyTU, 0), (keyTU, 0), (keyTU, 0), (missKey1, 0)] hitState).hits = 3 := by
    decide
  have h4 : (runGets [(keyTU, 0), (keyTU, 0), (keyTU, 0), (missKey1, 0)] hitState).misses = 1 := by
    decide
  refine ⟨runGets_hitRate _ hitState (by rw [h3, h4]; norm_num), h3, h4, ?_⟩
  simp only [getStats, h3, h4]
  rw [if_pos (by norm_num : (3 : ℕ) + 1 > 0)]
  rw [show (((3 : ℕ) : ℚ) / (((3 : ℕ) + (1 : ℕ) : ℕ) : ℚ) * 100) * 100 = 7500 by push_cast; norm_num]
  rw [jsRound_eq 7500 7500 (by norm_num) (by norm_num)]
  norm_num

/-- Counterexample to C8 as stated: a sequence of three `get` calls
producing one hit and two misses is reported as `hitRate = 33.33`
(`3333/100`), whereas `h/(h+m)*100 = 100/3 = 33.333…` — the reported figure
is rounded to two decimals, not equal to the exact ratio. -/
theorem getStats_hitRate_rounding_counterexample :
    (runGets [(keyTU, 0), (missKey1, 0), (missKey2, 0)] hitState).hits = 1 ∧
    (runGets [(keyTU, 0), (missKey1, 0), (missKey2, 0)] hitState).misses = 2 ∧
    (getStats (runGets [(keyTU, 0), (missKey1, 0), (missKey2, 0)] hitState)).hitRate = 3333/100 ∧
    (((runGets [(keyTU, 0), (missKey1, 0), (missKey2, 0)] hitState).hits : ℚ) /
        (((runGets [(keyTU, 0), (missKey1, 0), (missKey2, 0)] hitState).hits : ℚ) +
         ((runGets [(keyTU, 0), (missKey1, 0), (missKey2, 0)] hitState).misses : ℚ)) * 100) = 100/3 ∧
    ¬ (getStats (runGets [(keyTU, 0), (missKey1, 0), (missKey2, 0)] hitState)).hitRate =
      (((runGets [(keyTU, 0), (missKey1, 0), (missKey2, 0)] hitState).hits : ℚ) /
        (((runGets [(keyTU, 0), (missKey1, 0), (missKey2, 0)] hitState).hits : ℚ) +
         ((runGets [(keyTU, 0), (missKey1, 0), (missKey2, 0)] hitState).misses : ℚ)) * 100) := by
  have h1 : (runGets [(keyTU, 0), (missKey1, 0), (missKey2, 0)] hitState).hits = 1 := by
    decide
  have h2 : (runGets [(keyTU, 0), (missKey1, 0), (missKey2, 0)] hitState).misses = 2 := by
    decide
  have hrate : (getStats (runGets [(keyTU, 0), (missKey1, 0), (missKey2, 0)] hitState)).hitRate =
      3333/100 := by
    simp only [getStats, h1, h2]
    rw [if_pos (by norm_num : (1 : ℕ) + 2 > 0)]
    rw [show (((1 : ℕ) : ℚ) / (((1 : ℕ) + (2 : ℕ) : ℕ) : ℚ) * 100) * 100 = 10000/3 by
      push_cast; norm_num]
    rw [jsRound_eq (10000/3) 3333 (by norm_num) (by norm_num)]
    norm_num
  have hexact : (((runGets [(keyTU, 0), (missKey1, 0), (missKey2, 0)] hitState).hits : ℚ) /
      (((runGets [(keyTU, 0), (missKey1, 0), (missKey2, 0)] hitState).hits : ℚ) +
       ((runGets [(keyTU, 0), (missKey1, 0), (missKey2, 0)] hitState).misses : ℚ)) * 100) =
      100/3 := by
    rw [h1, h2]
    norm_num
  refine ⟨h1, h2, hrate, hexact, ?_⟩
  rw [hrate, hexact]
  norm_num

/-! ## Claim C2 — lesson state machine transitions -/

/-- C2 (amended): one `advance` either increments the cursor (when the
cursor is not at the last card) or transitions to the immediately next state
in the fixed forward order; every such transition resets the cursor to 0
*except* `examReview → completion`, which leaves the cursor unchanged (see
the counterexample); entering `mainQuiz` or `examPractice` clears all
recorded answers; in `completion` further advances are no-ops. -/
theorem handleNextCard_transitions (d : LessonData) (s : MachineState) :
    ((s.currentCardIndex : ℤ) < (currentLen d s.contentState : ℤ) - 1 →
      handleNextCard d s = { s with currentCardIndex := s.currentCardIndex + 1 }) ∧
    (¬ ((s.currentCardIndex : ℤ) < (currentLen d s.contentState : ℤ) - 1) →
      s.contentState = .completion → handleNextCard d s = s) ∧
    (¬ ((s.currentCardIndex : ℤ) < (currentLen d s.contentState : ℤ) - 1) →
      s.contentState ≠ .completion →
      (handleNextCard d s).contentState = nextState s.contentState ∧
      (handleNextCard d s).currentCardIndex =
        (if s.contentState = .examReview then s.currentCardIndex else 0) ∧
      (((handleNextCard d s).contentState = .mainQuiz ∨
        (handleNextCard d s).contentState = .examPractice) →
        (handleNextCard d s).quizAnswers = [])) := by
  obtain ⟨cs, idx, qa, qr⟩ := s
  refine ⟨?_, ?_, ?_⟩
  · intro h
    simp only [handleNextCard]
    rw [if_pos h]
  · intro h hc
    simp only at hc
    subst hc
    simp only [handleNextCard]
    rw [if_neg h]
  · intro h hc
    cases cs with
    | intro =>
      simp only [handleNextCard]
      rw [if_neg h]
      refine ⟨rfl, by rw [if_neg (by decide)], ?_⟩
      intro hor
      rcases hor with h1 | h1 <;> cases h1
    | content =>
      simp only [handleNextCard]
      rw [if_neg h]
      refine ⟨rfl, by rw [if_neg (by decide)], ?_⟩
      intro hor
      rcases hor with h1 | h1 <;> cases h1
    | thankYou =>
      simp only [handleNextCard]
      rw [if_neg h]
      exact ⟨rfl, by rw [if_neg (by decide)], fun _ => rfl⟩
    | mainQuiz =>
      simp only [handleNextCard]
      rw [if_neg h]
      refine ⟨rfl, by rw [if_neg (by decide)], ?_⟩
      intro hor
      rcases hor with h1 | h1 <;> cases h1
    | mainQuizReview =>
      simp only [handleNextCard]
      rw [if_neg h]
      exact ⟨rfl, by rw [if_neg (by decide)], fun _ => rfl⟩
    | examPractice =>
      simp only [handleNextCard]
      rw [if_neg h]
      refine ⟨rfl, by rw [if_neg (by decide)], ?_⟩
      intro hor
      rcases hor with h1 | h1 <;> cases h1
    | examReview =>
      simp only [handleNextCard]
      rw [if_neg h]
      refine ⟨rfl, by simp, ?_⟩
      intro hor
      rcases hor with h1 | h1 <;> cases h1
    | completion => exact absurd rfl hc

/-- A lesson bundle whose exam quiz has two questions (used to drive the
state machine through `examReview`). -/
def examData : LessonData :=
  ⟨[], [], [⟨"q1", .multipleChoice, some ["a", "b"], "a", "e1"⟩,
            ⟨"q2", .trueFalse, none, "True", "e2"⟩]⟩

/-- Witness for C2: the spec's own example — at `intro` with its single
card, one advance moves to `content` (the next state in the fixed order)
with the cursor reset to 0. -/
theorem handleNextCard_transitions_witness :
    (handleNextCard examData ⟨.intro, 0, [], []⟩).contentState =
      nextState (⟨.intro, 0, [], []⟩ : MachineState).contentState ∧
    (handleNextCard examData ⟨.intro, 0, [], []⟩).currentCardIndex =
      (if (⟨.intro, 0, [], []⟩ : MachineState).contentState = .examReview
       then (⟨.intro, 0, [], []⟩ : MachineState).currentCardIndex else 0) ∧
    (((handleNextCard examData ⟨.intro, 0, [], []⟩).contentState = .mainQuiz ∨
      (handleNextCard examData ⟨.intro, 0, [], []⟩).contentState = .examPractice) →
      (handleNextCard examData ⟨.intro, 0, [], []⟩).quizAnswers = []) :=
  (handleNextCard_transitions examData ⟨.intro, 0, [], []⟩).2.2 (by decide) (by decide)

/-- Counterexample to C2 as stated ("one advance either increments the
cursor or transitions to the immediately next state with the cursor reset
to 0"): at `examReview`'s last card (cursor 1 of 2), one advance moves to
`completion` but leaves the cursor at 1 — the `exam-review` case of the
source's `switch` is the only one without `setCurrentCardIndex(0)`. -/
theorem handleNextCard_examReview_keeps_cursor :
    ¬ ((1 : ℤ) < (currentLen examData .examReview : ℤ) - 1) ∧
    (handleNextCard examData ⟨.examReview, 1, [], []⟩).contentState = .completion ∧
    (handleNextCard examData ⟨.examReview, 1, [], []⟩).currentCardIndex = 1 := by
  decide

/-! ## Claim C7 — quiz scoring -/

lemma countCorrect_evaluateQuiz (answers : List (ℕ × String))
    (quiz : List AIQuizQuestion) :
    countCorrect (evaluateQuiz answers quiz) =
      (quiz.enum.filter
        (fun iq => recordGet answers iq.1 = some iq.2.correct_answer)).length := by
  unfold countCorrect evaluateQuiz
  generalize quiz.enum = l
  induction l with
  | nil => rfl
  | cons iq l ih =>
    by_cases h : recordGet answers iq.1 = some iq.2.correct_answer
    · simp [h, ih]
    · simp [h, ih]

/-- C7: on leaving `mainQuiz` at its last card, `evaluateQuiz` records one
boolean per question (true exactly when the recorded answer equals the
question's `correct_answer`), and the `main-quiz-review` effect computes
`score = Math.round(correctCount / totalCount * 100)` and awards
`xp = Math.round(30 * (score / 100))`. -/
theorem quizScore_formula (d : LessonData) (s : MachineState)
    (correctCount totalCount : ℕ)
    (hstate : s.contentState = .mainQuiz)
    (hlast : ¬ ((s.currentCardIndex : ℤ) < (currentLen d s.contentState : ℤ) - 1))
    (_htot : totalCount = d.mainQuiz.length)
    (_h0 : 0 < totalCount)
    (hc : correctCount = (d.mainQuiz.enum.filter
      (fun iq => recordGet s.quizAnswers iq.1 = some iq.2.correct_answer)).length) :
    (handleNextCard d s).contentState = .mainQuizReview ∧
    quizScore (handleNextCard d s).quizResults totalCount =
      jsRound ((correctCount : ℚ) / (totalCount : ℚ) * 100) ∧
    quizXp (quizScore (handleNextCard d s).quizResults totalCount) =
      jsRound (30 * ((jsRound ((correctCount : ℚ) / (totalCount : ℚ) * 100) : ℚ) / 100)) := by
  obtain ⟨cs, idx, qa, qr⟩ := s
  simp only at hstate
  subst hstate
  have hnext : handleNextCard d ⟨.mainQuiz, idx, qa, qr⟩ =
      ⟨.mainQuizReview, 0, qa, evaluateQuiz qa d.mainQuiz⟩ := by
    simp only [handleNextCard]
    rw [if_neg hlast]
  rw [hnext]
  have hscore : quizScore (evaluateQuiz qa d.mainQuiz) totalCount =
      jsRound ((correctCount : ℚ) / (totalCount : ℚ) * 100) := by
    rw [quizScore, countCorrect_evaluateQuiz, ← hc]
  exact ⟨rfl, hscore, by rw [hscore]; rfl⟩

/-- A four-question main quiz with three correctly recorded answers. -/
def quizData : LessonData :=
  ⟨[], [⟨"q1", .multipleChoice, some ["a", "x"], "a", "e1"⟩,
        ⟨"q2", .multipleChoice, some ["b", "x"], "b", "e2"⟩,
        ⟨"q3", .fillBlank, none, "c", "e3"⟩,
        ⟨"q4", .trueFalse, none, "True", "e4"⟩], []⟩

/-- The lesson session at `mainQuiz`'s last card with answers recorded for
all four questions, the fourth one wrong. -/
def quizState : MachineState :=
  ⟨.mainQuiz, 3, [(0, "a"), (1, "b"), (2, "c"), (3, "False")], []⟩

/-- Witness for C7: 3 correct answers out of 4 yield
`score = round(3/4*100) = 75` and `xp = round(30*75/100) = round(22.5) = 23`. -/
theorem quizScore_formula_witness :
    ((handleNextCard quizData quizState).contentState = .mainQuizReview ∧
     quizScore (handleNextCard quizData quizState).quizResults 4 =
       jsRound (((3 : ℕ) : ℚ) / ((4 : ℕ) : ℚ) * 100) ∧
     quizXp (quizScore (handleNextCard quizData quizState).quizResults 4) =
       jsRound (30 * ((jsRound (((3 : ℕ) : ℚ) / ((4 : ℕ) : ℚ) * 100) : ℚ) / 100))) ∧
    jsRound (((3 : ℕ) : ℚ) / ((4 : ℕ) : ℚ) * 100) = 75 ∧
    jsRound (30 * (((75 : ℤ) : ℚ) / 100)) = 23 := by
  have h75 : jsRound (((3 : ℕ) : ℚ) / ((4 : ℕ) : ℚ) * 100) = 75 := by
    rw [show ((3 : ℕ) : ℚ) / ((4 : ℕ) : ℚ) * 100 = 75 by push_cast; norm_num]
    exact jsRound_eq 75 75 (by norm_num) (by norm_num)
  have h23 : jsRound (30 * (((75 : ℤ) : ℚ) / 100)) = 23 := by
    rw [show 30 * (((75 : ℤ) : ℚ) / 100) = 45/2 by push_cast; norm_num]
    exact jsRound_eq (45/2) 23 (by norm_num) (by norm_num)
  exact ⟨quizScore_formula quizData quizState 3 4 rfl (by decide) rfl
    (by norm_num) (by decide), h75, h23⟩

/-! ## Claim C1 — fallback on gateway unavailability -/

/-- C1 (amended): `getAIContentForSubtopic` never throws — every request
yields some bundle — and on a *cache miss*, when the Generation Gateway
reports unavailable or its health check throws, the returned bundle is the
static fallback, which is non-empty.  (On a cache hit the cached bundle is
returned unchanged, even while the gateway is down — see the
counterexample.) -/
theorem getAIContentForSubtopic_fallback (env : OrchestratorEnv)
    (subtopicId topicId subjectId gradeId : String) (numCards : ℕ) (now : ℤ)
    (st : CacheState (List AIContentCard)) :
    (∃ cs, (getAIContentForSubtopic env subtopicId topicId subjectId gradeId
        numCards now st).1 = .ok cs) ∧
    ((getCachedContent topicId subtopicId subjectId gradeId numCards now st).1 = none →
      (env.health = .error () ∨ env.health = .ok false) →
      (getAIContentForSubtopic env subtopicId topicId subjectId gradeId
          numCards now st).1 = .ok (getFallbackContent subtopicId topicId subjectId) ∧
      getFallbackContent subtopicId topicId subjectId ≠ []) := by
  constructor
  · rcases hcache : getCachedContent topicId subtopicId subjectId gradeId numCards now st
      with ⟨o, st1⟩
    cases o with
    | some c =>
      refine ⟨c, ?_⟩
      simp only [getAIContentForSubtopic]
      rw [hcache]
    | none =>
      by_cases hsvc : ¬ (checkAiServiceStatus env.health).available ∨
          ¬ (checkAiServiceStatus env.health).modelLoaded
      · refine ⟨getFallbackContent subtopicId topicId subjectId, ?_⟩
        simp only [getAIContentForSubtopic]
        rw [hcache]
        dsimp only
        rw [if_pos hsvc]
      · cases hec : (if (checkChromaDBStatus env.chromaConnected env.chromaStatsAvailable
              env.chromaDocCount).available ∧
            (checkChromaDBStatus env.chromaConnected env.chromaStatsAvailable
              env.chromaDocCount).collectionExists then
            generateRAGEnhancedContentCards env subtopicId topicId subjectId gradeId numCards
          else
            env.genPlain.map (fun cs => cs.map plainEnhance)) with
        | ok cs =>
          refine ⟨cs, ?_⟩
          simp only [getAIContentForSubtopic]
          rw [hcache]
          dsimp only
          rw [if_neg hsvc, hec]
        | error e =>
          refine ⟨getFallbackContent subtopicId topicId subjectId, ?_⟩
          simp only [getAIContentForSubtopic]
          rw [hcache]
          dsimp only
          rw [if_neg hsvc, hec]
  · intro hmiss hunav
    have hsvc : ¬ (checkAiServiceStatus env.health).available ∨
        ¬ (checkAiServiceStatus env.health).modelLoaded := by
      rcases hunav with h | h <;> rw [h] <;> simp [checkAiServiceStatus]
    constructor
    · rcases hcache : getCachedContent topicId subtopicId subjectId gradeId numCards now st
        with ⟨o, st1⟩
      have ho : o = none := by
        have := hmiss
        rw [hcache] at this
        exact this
      subst ho
      simp only [getAIContentForSubtopic]
      rw [hcache]
      dsimp only
      rw [if_pos hsvc]
    · simp [getFallbackContent]

/-- Witness for C1: with the health check throwing and an empty cache, the
request returns exactly the non-empty static fallback bundle. -/
theorem getAIContentForSubtopic_fallback_witness :
    (∃ cs, (getAIContentForSubtopic envDown "u" "t" "subj" "g" 5 0 ⟨[], [], 0, 0⟩).1 =
      .ok cs) ∧
    (getAIContentForSubtopic envDown "u" "t" "subj" "g" 5 0 ⟨[], [], 0, 0⟩).1 =
      .ok (getFallbackContent "u" "t" "subj") ∧
    getFallbackContent "u" "t" "subj" ≠ [] :=
  ⟨(getAIContentForSubtopic_fallback envDown "u" "t" "subj" "g" 5 0 ⟨[], [], 0, 0⟩).1,
   (getAIContentForSubtopic_fallback envDown "u" "t" "subj" "g" 5 0 ⟨[], [], 0, 0⟩).2
     rfl (Or.inl rfl)⟩

/-- Counterexample to C1 as stated ("for every content request, if the
Generation Gateway reports unavailable …, getAIContentForSubtopic returns
the static fallback bundle"): with the gateway down but the cache warm, the
orchestrator returns the cached one-card bundle, not the three-card static
fallback — tier 1 short-circuits before the availability check. -/
theorem getAIContentForSubtopic_cacheHit_not_fallback :
    (checkAiServiceStatus envDown.health).available = false ∧
    (getAIContentForSubtopic envDown "u" "t" "subj" "g" 5 0 warmState).1 =
      .ok [cachedCard] ∧
    [cachedCard] ≠ getFallbackContent "u" "t" "subj" ∧
    (getFallbackContent "u" "t" "subj").length = 3 := by
  refine ⟨rfl, rfl, ?_, rfl⟩
  intro h
  have hlen := congrArg List.length h
  simp [getFallbackContent] at hlen

/-! ## Claim C6 — curriculum alignment of validated cards -/

lemma validateContent_alignment (searchResult : Option (List ChromaDoc))
    (hdist : ∀ docs, searchResult = some docs →
      ∀ d ∈ docs, ∀ x, d.distance = some x → 0 ≤ x) :
    0 ≤ (validateContent searchResult).curriculumAlignment ∧
    (validateContent searchResult).curriculumAlignment ≤ 1 := by
  cases searchResult with
  | none =>
    simp only [validateContent, retrieveContext, getEmptyContext]
    norm_num
  | some docs =>
    by_cases hlen : (retrieveContext (some docs)).documents.length = 0
    · simp only [validateContent, if_pos hlen]
      norm_num
    · have hd : ∀ d ∈ (retrieveContext (some docs)).documents, 0 ≤ distOr1 d := by
        intro d hdmem
        have hmem : d ∈ docs := by
          simp only [retrieveContext] at hdmem
          exact (List.mem_filter.mp hdmem).1
        unfold distOr1
        cases hx : d.distance with
        | none => norm_num
        | some x =>
          show (0 : ℚ) ≤ if x = 0 then 1 else x
          by_cases hx0 : x = 0
          · rw [if_pos hx0]
            norm_num
          · rw [if_neg hx0]
            exact hdist docs rfl d hmem x hx
      have hsum : 0 ≤ ((retrieveContext (some docs)).documents.map distOr1).sum := by
        apply List.sum_nonneg
        intro x hx
        obtain ⟨d, hd1, hd2⟩ := List.mem_map.mp hx
        rw [← hd2]
        exact hd d hd1
      have havg : 0 ≤ ((retrieveContext (some docs)).documents.map distOr1).sum /
          ((retrieveContext (some docs)).documents.length : ℚ) :=
        div_nonneg hsum (by positivity)
      simp only [validateContent, if_neg hlen]
      constructor
      · exact le_max_left 0 _
      · apply max_le (by norm_num)
        linarith

/-- C6 (amended): on a cache miss, when the health check reports the model
loaded, ChromaDB reports an available, existing collection, and the
generation call succeeds, every returned content card carries a validation
record whose `curriculumAlignment` lies in `[0, 1]` (assuming the retrieval
documents' distances are non-negative).  (A cache hit can return cards
without validation — see the counterexample.) -/
theorem getAIContentForSubtopic_validated (env : OrchestratorEnv)
    (subtopicId topicId subjectId gradeId : String) (numCards : ℕ) (now : ℤ)
    (st : CacheState (List AIContentCard)) (cards : List ContentCard)
    (hmiss : (getCachedContent topicId subtopicId subjectId gradeId numCards now st).1 = none)
    (hhealth : env.health = .ok true)
    (hconn : env.chromaConnected = true)
    (hstats : env.chromaStatsAvailable = true)
    (hgen : env.genRag = .ok cards)
    (hdist : ∀ i docs, env.valSearch i = some docs →
      ∀ d ∈ docs, ∀ x, d.distance = some x → 0 ≤ x) :
    ∃ l, (getAIContentForSubtopic env subtopicId topicId subjectId gradeId
        numCards now st).1 = .ok l ∧
      ∀ c ∈ l, ∃ v, c.validation = some v ∧
        0 ≤ v.curriculumAlignment ∧ v.curriculumAlignment ≤ 1 := by
  rcases hcache : getCachedContent topicId subtopicId subjectId gradeId numCards now st
    with ⟨o, st1⟩
  have ho : o = none := by
    have := hmiss
    rw [hcache] at this
    exact this
  subst ho
  have hsvc : ¬ (¬ (checkAiServiceStatus env.health).available ∨
      ¬ (checkAiServiceStatus env.health).modelLoaded) := by
    rw [hhealth]
    simp [checkAiServiceStatus]
  have hchroma : (checkChromaDBStatus env.chromaConnected env.chromaStatsAvailable
        env.chromaDocCount).available ∧
      (checkChromaDBStatus env.chromaConnected env.chromaStatsAvailable
        env.chromaDocCount).collectionExists := by
    rw [hconn, hstats]
    simp [checkChromaDBStatus]
  refine ⟨cards.enum.map (fun ic =>
    { title := ic.2.title, body := ic.2.body, card_type := ic.2.card_type,
      image := if shouldHaveImage ic.2.title ic.2.body then some placeholderImage else none,
      validation := some (validateContent (env.valSearch ic.1)),
      ragContext := some (generateRAGEnhancedContent
        ("Generate " ++ Nat.repr numCards ++ " educational content cards for " ++
          formatTitle subtopicId ++ " in " ++ formatTitle subjectId ++ " for " ++ gradeId)
        env.ragSearch env.ragValSearch).context }), ?_, ?_⟩
  · simp only [getAIContentForSubtopic]
    rw [hcache]
    dsimp only
    rw [if_neg hsvc, if_pos hchroma]
    simp only [generateRAGEnhancedContentCards]
    rw [hgen]
  · intro c hcmem
    obtain ⟨ic, hicmem, hceq⟩ := List.mem_map.mp hcmem
    refine ⟨validateContent (env.valSearch ic.1), ?_, ?_⟩
    · rw [← hceq]
    · exact validateContent_alignment (env.valSearch ic.1)
        (fun docs hdocs => hdist ic.1 docs hdocs)

/-- Witness for C6: healthy gateways, an existing collection, one generated
card, an empty cache. -/
theorem getAIContentForSubtopic_validated_witness :
    ∃ l, (getAIContentForSubtopic envHealthyGen "u" "t" "subj" "g" 5 0 ⟨[], [], 0, 0⟩).1 =
      .ok l ∧
      ∀ c ∈ l, ∃ v, c.validation = some v ∧
        0 ≤ v.curriculumAlignment ∧ v.curriculumAlignment ≤ 1 :=
  getAIContentForSubtopic_validated envHealthyGen "u" "t" "subj" "g" 5 0 ⟨[], [], 0, 0⟩
    [genCard] rfl rfl rfl rfl rfl
    (fun _ _ hdocs => Option.noConfusion hdocs)

/-- Counterexample to C6 as stated ("when the Generation Gateway is healthy
and the Retrieval Gateway reports an existing collection, every content card
returned by getAIContentForSubtopic carries a validation field"): with both
gateways healthy but the cache warm, the orchestrator returns the cached
bundle, whose card carries no validation record at all. -/
theorem getAIContentForSubtopic_cacheHit_unvalidated :
    envHealthy.health = .ok true ∧
    envHealthy.chromaConnected = true ∧
    envHealthy.chromaStatsAvailable = true ∧
    (getAIContentForSubtopic envHealthy "u" "t" "subj" "g" 5 0 warmState).1 =
      .ok [cachedCard] ∧
    cachedCard.validation = none :=
  ⟨rfl, rfl, rfl, rfl, rfl⟩

end SmartClass
